import Mathlib

/-!
Shallow embedding of the indexation / timeline-simulation core of
`mizon_app2.py` (a CPI-indexed payment calculator), together with proofs of
the specification's claims about it.

Calendar months are represented by an absolute month index
`monthIdx y m = 12 * y + m - 1`; full dates (used only for the
`datetime`-style lexicographic comparisons in the annual-linkage loop) are
triples `(year, month, day)`.  Decimal quantities are rationals.
-/

set_option maxHeartbeats 1000000
set_option linter.unusedVariables false

namespace MezonotMadad

/-- Absolute index of a calendar month: `monthIdx y m = 12 * y + (m - 1)`.
Adding `k` months (pandas `DateOffset(months=k)`) is adding `k` to the index. -/
def monthIdx (y m : Int) : Int := 12 * y + m - 1

/-- Year of an absolute month index (Int division is euclidean here, so the
rollover is correct for all years). -/
def yearOf (i : Int) : Int := i / 12

/-- Month (1..12) of an absolute month index. -/
def monthOf (i : Int) : Int := i % 12 + 1

/-- A calendar date, mirroring Python `datetime` for comparison purposes. -/
structure Date where
  year : Int
  month : Int
  day : Int
deriving DecidableEq

/-- Lexicographic order on dates, as Python `datetime.__le__`. -/
def Date.le (a b : Date) : Prop :=
  a.year < b.year ∨
    (a.year = b.year ∧ (a.month < b.month ∨ (a.month = b.month ∧ a.day ≤ b.day)))

/-- Strict lexicographic order on dates, as Python `datetime.__lt__`. -/
def Date.lt (a b : Date) : Prop :=
  a.year < b.year ∨
    (a.year = b.year ∧ (a.month < b.month ∨ (a.month = b.month ∧ a.day < b.day)))

instance (a b : Date) : Decidable (Date.le a b) := by
  unfold Date.le; exact inferInstance

instance (a b : Date) : Decidable (Date.lt a b) := by
  unfold Date.lt; exact inferInstance

/-- Proleptic-Gregorian leap year, as Python `datetime` uses. -/
def isLeapYear (y : Int) : Prop :=
  (y % 4 = 0 ∧ y % 100 ≠ 0) ∨ y % 400 = 0

instance (y : Int) : Decidable (isLeapYear y) := by
  unfold isLeapYear; exact inferInstance

/-- Number of days in a month.  The source computes it as
`(datetime(year, month % 12 + 1, 1) - timedelta(days=1)).day`; for December
the quirky `datetime(year, 1, 1) - 1 day` still yields day 31, so the value
agrees with the standard calendar for every month. -/
def daysInMonth (y m : Int) : Int :=
  if m = 2 then (if isLeapYear y then 29 else 28)
  else if m = 4 ∨ m = 6 ∨ m = 9 ∨ m = 11 then 30
  else 31

/-- `ANNUAL_LINKAGE_FACTOR = 1.074` from the source configuration. -/
def ANNUAL_LINKAGE_FACTOR : ℚ := 1074 / 1000

/-- `get_cpi_month_for_effective_date`: the applicable CPI month is two
calendar months before the effective date
(`effective_date - pd.DateOffset(months=2)`). -/
def get_cpi_month_for_effective_date (y m : Int) : Int × Int :=
  (yearOf (monthIdx y m - 2), monthOf (monthIdx y m - 2))

/-- The CPI lookup month, as an absolute index, for the effective month `i`. -/
def cpiLookupIdx (i : Int) : Int :=
  monthIdx (get_cpi_month_for_effective_date (yearOf i) (monthOf i)).1
           (get_cpi_month_for_effective_date (yearOf i) (monthOf i)).2

/-- `start_year_for_factor_check` from
`calculate_indexed_amount_from_fixed_base`: the base year, bumped by one when
the base effective date has `month > 2 or (month == 2 and day >= 28)`. -/
def startYearForFactorCheck (base : Date) : Int :=
  if base.month > 2 ∨ (base.month = 2 ∧ base.day ≥ 28) then base.year + 1
  else base.year

/-- The yearly trigger date `datetime(year, 2, 28)` used by the source loop
(the comments say "January 17th" but the code constructs February 28). -/
def triggerDate (y : Int) : Date := ⟨y, 2, 28⟩

/-- The first trigger date considered by the source loop. -/
def firstTriggerDate (base : Date) : Date := triggerDate (startYearForFactorCheck base)

/-- `num_years_for_factor`: the source iterates
`range(start_year_for_factor_check, current_billing_date.year + 1)` and
overwrites the counter with `1` whenever `datetime(y, 2, 28) <= billing`. -/
def numYearsForFactor (base billing : Date) : Nat :=
  (List.range (billing.year + 1 - startYearForFactorCheck base).toNat).foldl
    (fun acc (i : ℕ) =>
      if Date.le (triggerDate (startYearForFactorCheck base + (i : Int))) billing
      then 1 else acc) 0

/-- `annual_linkage_multiplier = ANNUAL_LINKAGE_FACTOR ** num_years_for_factor`
(parameterised by the factor). -/
def annualLinkageMultiplier (f : ℚ) (base billing : Date) : ℚ :=
  f ^ numYearsForFactor base billing

/-- `calculate_indexed_amount_from_fixed_base`: returns `none` when either CPI
value is absent or the fixed base value is `0`; otherwise the pair of the
final amount `base * (current / fixed) * multiplier` and the multiplier. -/
def calculate_indexed_amount_from_fixed_base
    (base_amount : ℚ) (fixed_base_cpi_value current_period_cpi_value : Option ℚ)
    (base_effective_date current_billing_date : Date) : Option (ℚ × ℚ) :=
  match fixed_base_cpi_value, current_period_cpi_value with
  | some f, some c =>
    if f = 0 then none
    else
      some
        (base_amount * (c / f) *
            annualLinkageMultiplier ANNUAL_LINKAGE_FACTOR base_effective_date
              current_billing_date,
          annualLinkageMultiplier ANNUAL_LINKAGE_FACTOR base_effective_date
            current_billing_date)
  | _, _ => none

/-- The configuration supplied by the caller (`main`'s inputs). -/
structure IndexationConfig where
  baseAmount : ℚ
  baseYear : Int
  baseMonth : Int
  billingDay : Int
  updateFrequencyMonths : Int

/-- One row of the simulated timeline (`history_data` in the source). -/
structure UpdateEvent where
  effectiveDate : Int
  isOfficialUpdatePoint : Bool
  appliedCpiPeriod : Option Int
  quote : Option ℚ
  annualMultiplier : Option ℚ
  resultingAmount : ℚ
deriving DecidableEq

/-- Default event used for positional access into timelines. -/
def dummyEvent : UpdateEvent := ⟨0, false, none, none, none, 0⟩

/-- Absolute month index of the base effective date. -/
def baseIdx (cfg : IndexationConfig) : Int := monthIdx cfg.baseYear cfg.baseMonth

/-- `base_effective_date_obj = datetime(base_year, base_month, 1)`. -/
def baseDateObj (cfg : IndexationConfig) : Date := ⟨cfg.baseYear, cfg.baseMonth, 1⟩

/-- Billing date for the month with absolute index `i`: the configured billing
day, clamped to the month's last valid day (the `try`/`except ValueError`
construction in the source). -/
def billingDateFor (cfg : IndexationConfig) (i : Int) : Date :=
  ⟨yearOf i, monthOf i, min cfg.billingDay (daysInMonth (yearOf i) (monthOf i))⟩

/-- The `while current_scan_date <= max_scan_limit_date` loop of `main`,
with `fuel` months left to scan.  `scan` is the current month, `nextUpd` the
running "next official update" cursor, `disp` the currently displayed amount
(`current_displayed_amount_in_history`).  A month is an official update point
when `scan = nextUpd`; official points resolve the CPI quote two months back;
a failing indexation computation (`calculated_amount_with_factor is None`)
`break`s the loop without emitting a row. -/
def simulateAux (cfg : IndexationConfig) (q : Int → Option ℚ) (fixedBase : ℚ) :
    Nat → Int → Int → ℚ → List UpdateEvent
  | 0, _, _, _ => []
  | fuel + 1, scan, nextUpd, disp =>
    if scan = nextUpd then
      match q (cpiLookupIdx scan) with
      | none =>
        { effectiveDate := scan, isOfficialUpdatePoint := true,
          appliedCpiPeriod := some (cpiLookupIdx scan), quote := none,
          annualMultiplier := none, resultingAmount := disp } ::
          simulateAux cfg q fixedBase fuel (scan + 1)
            (nextUpd + cfg.updateFrequencyMonths) disp
      | some v =>
        match calculate_indexed_amount_from_fixed_base cfg.baseAmount
            (some fixedBase) (some v) (baseDateObj cfg) (billingDateFor cfg scan) with
        | none => []
        | some (amt, mult) =>
          { effectiveDate := scan, isOfficialUpdatePoint := true,
            appliedCpiPeriod := some (cpiLookupIdx scan), quote := some v,
            annualMultiplier := some mult, resultingAmount := amt } ::
            simulateAux cfg q fixedBase fuel (scan + 1)
              (nextUpd + cfg.updateFrequencyMonths) amt
    else
      { effectiveDate := scan, isOfficialUpdatePoint := false,
        appliedCpiPeriod := none, quote := none,
        annualMultiplier := none, resultingAmount := disp } ::
        simulateAux cfg q fixedBase fuel (scan + 1) nextUpd disp

/-- The full timeline scan: one iteration per month from the base effective
month to `scanEndIdx` inclusive, starting with the displayed amount seeded to
the base amount and the update cursor at the base month. -/
def simulate (cfg : IndexationConfig) (q : Int → Option ℚ) (fixedBase : ℚ)
    (scanEndIdx : Int) : List UpdateEvent :=
  simulateAux cfg q fixedBase ((scanEndIdx - baseIdx cfg + 1).toNat)
    (baseIdx cfg) (baseIdx cfg) cfg.baseAmount

/-- Month of the fixed base CPI quote: two months before the base effective
month. -/
def fixedBaseCpiIdx (cfg : IndexationConfig) : Int := cpiLookupIdx (baseIdx cfg)

/-- The backward scan of `main` looking for the last available CPI value:
`while temp >= fixed_base_month: lookup; if found: break; temp -= 1`,
with `fuel` months left before reaching the fixed base month. -/
def fallbackScan (q : Int → Option ℚ) : Nat → Int → Option ℚ
  | 0, _ => none
  | fuel + 1, i =>
    match q i with
    | some v => some v
    | none => fallbackScan q fuel (i - 1)

/-- Resolution of the CPI value used for the final "current amount"
computation: the quote for `curIdx` if published, otherwise the first
available quote scanning backwards from `curIdx - 1` down to `fbIdx`. -/
def resolveCurrentForFinal (q : Int → Option ℚ) (fbIdx curIdx : Int) : Option ℚ :=
  match q curIdx with
  | some v => some v
  | none => fallbackScan q ((curIdx - fbIdx).toNat) (curIdx - 1)

/-- The calculation pipeline of `main` after the button press, for a given
"today" month: validate the base billing date, resolve the fixed base quote
(fatal if absent), resolve the current CPI value (with backward fallback),
run the final indexation, and, if everything succeeded, produce the timeline
scanning up to two months past today.  `none` means `main` returned without a
timeline. -/
def main_run (cfg : IndexationConfig) (q : Int → Option ℚ) (todayIdx : Int) :
    Option (List UpdateEvent) :=
  if 1 ≤ cfg.billingDay ∧ cfg.billingDay ≤ daysInMonth cfg.baseYear cfg.baseMonth then
    match q (fixedBaseCpiIdx cfg) with
    | none => none
    | some fb =>
      match resolveCurrentForFinal q (fixedBaseCpiIdx cfg) (todayIdx - 2) with
      | none => none
      | some cur =>
        match calculate_indexed_amount_from_fixed_base cfg.baseAmount (some fb)
            (some cur) (baseDateObj cfg) (billingDateFor cfg todayIdx) with
        | none => none
        | some _ => some (simulate cfg q fb (todayIdx + 2))
  else none

/-- Carry-forward invariant: walking a timeline whose previously displayed
amount is `prev`, every event that is not official or has an absent quote
shows exactly the previous event's amount. -/
def carriesForwardFrom (prev : ℚ) : List UpdateEvent → Prop
  | [] => True
  | e :: rest =>
    ((e.isOfficialUpdatePoint = false ∨ e.quote = none) → e.resultingAmount = prev) ∧
      carriesForwardFrom e.resultingAmount rest

/-- Example configuration from the specification's end-to-end example:
base amount 4000, base effective May 2024, billing day 1, quarterly updates. -/
def cfgEx : IndexationConfig := ⟨4000, 2024, 5, 1, 3⟩

/-- Example quote provider: 100.00 for period 2024-03, 103.00 for period
2024-09, absent otherwise. -/
def qEx : Int → Option ℚ := fun i =>
  if i = monthIdx 2024 3 then some 100
  else if i = monthIdx 2024 9 then some 103
  else none

/-! ### Basic lemmas about the calendar embedding -/

theorem cpiLookupIdx_eq (i : Int) : cpiLookupIdx i = i - 2 := by
  unfold cpiLookupIdx get_cpi_month_for_effective_date monthIdx yearOf monthOf
  omega

theorem dateLe_trans {a b c : Date} (h1 : Date.le a b) (h2 : Date.le b c) :
    Date.le a c := by
  unfold Date.le at h1 h2 ⊢
  omega

theorem triggerDate_le_mono {y1 y2 : Int} (h : y1 ≤ y2) :
    Date.le (triggerDate y1) (triggerDate y2) := by
  unfold triggerDate Date.le
  dsimp only
  omega

theorem triggerDate_le_year {y : Int} {b : Date} (h : Date.le (triggerDate y) b) :
    y ≤ b.year := by
  unfold triggerDate Date.le at h
  dsimp only at h
  omega

/-! ### The annual-linkage counter -/

theorem triggerFold_of_hit (billing : Date) (startY : Int) :
    ∀ (n : ℕ) (acc : ℕ),
      (∃ i : ℕ, i < n ∧ Date.le (triggerDate (startY + (i : Int))) billing) →
      (List.range n).foldl
        (fun acc2 (i : ℕ) =>
          if Date.le (triggerDate (startY + (i : Int))) billing then 1 else acc2)
        acc = 1 := by
  intro n
  induction n with
  | zero =>
    rintro acc ⟨i, hi, _⟩
    omega
  | succ n ih =>
    rintro acc ⟨i, hi, hPi⟩
    rw [List.range_succ, List.foldl_append]
    simp only [List.foldl_cons, List.foldl_nil]
    by_cases hP : Date.le (triggerDate (startY + (n : Int))) billing
    · simp [hP]
    · have hin : i < n := by
        rcases Nat.lt_succ_iff_lt_or_eq.mp hi with h2 | h2
        · exact h2
        · exact absurd (h2 ▸ hPi) hP
      simp only [if_neg hP]
      exact ih acc ⟨i, hin, hPi⟩

theorem triggerFold_of_miss (billing : Date) (startY : Int) :
    ∀ (n : ℕ) (acc : ℕ),
      (∀ i : ℕ, i < n → ¬ Date.le (triggerDate (startY + (i : Int))) billing) →
      (List.range n).foldl
        (fun acc2 (i : ℕ) =>
          if Date.le (triggerDate (startY + (i : Int))) billing then 1 else acc2)
        acc = acc := by
  intro n
  induction n with
  | zero => intro acc _; simp
  | succ n ih =>
    intro acc h
    rw [List.range_succ, List.foldl_append]
    simp only [List.foldl_cons, List.foldl_nil]
    rw [if_neg (h n (Nat.lt_succ_self n))]
    exact ih acc (fun i hi => h i (Nat.lt_succ_of_lt hi))

theorem numYears_eq_one (base billing : Date)
    (h : Date.le (firstTriggerDate base) billing) :
    numYearsForFactor base billing = 1 := by
  unfold numYearsForFactor
  apply triggerFold_of_hit
  refine ⟨0, ?_, by simpa using h⟩
  have hy : startYearForFactorCheck base ≤ billing.year := triggerDate_le_year h
  omega

theorem numYears_eq_zero (base billing : Date)
    (h : ¬ Date.le (firstTriggerDate base) billing) :
    numYearsForFactor base billing = 0 := by
  unfold numYearsForFactor
  apply triggerFold_of_miss
  intro i _ hcontra
  have hmono : Date.le (triggerDate (startYearForFactorCheck base))
      (triggerDate (startYearForFactorCheck base + i)) :=
    triggerDate_le_mono (by omega)
  exact h (dateLe_trans hmono hcontra)

theorem numYears_zero_or_one (base billing : Date) :
    numYearsForFactor base billing = 0 ∨ numYearsForFactor base billing = 1 := by
  by_cases h : Date.le (firstTriggerDate base) billing
  · exact Or.inr (numYears_eq_one base billing h)
  · exact Or.inl (numYears_eq_zero base billing h)

/-! ### Lemmas about the fixed-base indexation function -/

theorem calculate_some (a f c : ℚ) (d b : Date) (hf : f ≠ 0) :
    calculate_indexed_amount_from_fixed_base a (some f) (some c) d b =
      some (a * (c / f) * annualLinkageMultiplier ANNUAL_LINKAGE_FACTOR d b,
        annualLinkageMultiplier ANNUAL_LINKAGE_FACTOR d b) := by
  simp [calculate_indexed_amount_from_fixed_base, hf]

/-! ### Claim theorems: the indexation components -/

/-- C8: the fixed-base indexation returns the absent result if and only if the
fixed base value is absent, the current value is absent, or the fixed base
value is 0; being a total function it never divides by zero and never
raises. -/
theorem fixed_base_indexer_absent_iff (a : ℚ) (fb cv : Option ℚ)
    (d b : Date) :
    calculate_indexed_amount_from_fixed_base a fb cv d b = none ↔
      fb = none ∨ cv = none ∨ fb = some 0 := by
  cases fb with
  | none => simp [calculate_indexed_amount_from_fixed_base]
  | some f =>
    cases cv with
    | none => simp [calculate_indexed_amount_from_fixed_base]
    | some c =>
      by_cases hf : f = 0 <;>
        simp [calculate_indexed_amount_from_fixed_base, hf]

/-- C4: for every start date, billing date and positive factor `f`, the annual
linkage multiplier is `f ^ n` with `n ∈ {0, 1}`: it is `1` while the billing
date precedes the first trigger date strictly after the start date, and
exactly `f` once that trigger date has passed, never compounding further. -/
theorem annual_multiplier_single_application (start billing : Date) (f : ℚ)
    (hf : 0 < f) :
    (numYearsForFactor start billing = 0 ∨ numYearsForFactor start billing = 1) ∧
      Date.lt start (firstTriggerDate start) ∧
      (¬ Date.le (firstTriggerDate start) billing →
        annualLinkageMultiplier f start billing = 1) ∧
      (Date.le (firstTriggerDate start) billing →
        annualLinkageMultiplier f start billing = f) := by
  refine ⟨numYears_zero_or_one start billing, ?_, ?_, ?_⟩
  · unfold firstTriggerDate triggerDate startYearForFactorCheck Date.lt
    by_cases h : start.month > 2 ∨ (start.month = 2 ∧ start.day ≥ 28)
    · rw [if_pos h]
      dsimp only
      exact Or.inl (by omega)
    · rw [if_neg h]
      dsimp only
      exact Or.inr ⟨rfl, by omega⟩
  · intro h
    unfold annualLinkageMultiplier
    rw [numYears_eq_zero start billing h]
    simp
  · intro h
    unfold annualLinkageMultiplier
    rw [numYears_eq_one start billing h]
    simp

/-- Witness for C4: with start 2020-01-01, billing 2025-06-01 and factor 2,
the first trigger (2020-02-28) has passed, so the multiplier is exactly 2. -/
theorem annual_multiplier_single_application_witness :
    (0 : ℚ) < 2 ∧ Date.le (firstTriggerDate ⟨2020, 1, 1⟩) ⟨2025, 6, 1⟩ ∧
      annualLinkageMultiplier 2 ⟨2020, 1, 1⟩ ⟨2025, 6, 1⟩ = 2 :=
  ⟨by norm_num, by decide,
    (annual_multiplier_single_application ⟨2020, 1, 1⟩ ⟨2025, 6, 1⟩ 2
      (by norm_num)).2.2.2 (by decide)⟩

/-- C5 counterexample: the start date 2024-02-28 lies on (hence on or before)
its own year's trigger date, yet the first trigger year the code uses is
2025, not 2024 as the claim predicts. -/
theorem first_trigger_year_claim_counterexample :
    Date.le (⟨2024, 2, 28⟩ : Date) (triggerDate 2024) ∧
      startYearForFactorCheck ⟨2024, 2, 28⟩ ≠ 2024 := by
  exact ⟨by decide, by decide⟩

/-- C5 amended: the first candidate trigger year is the start date's own year
exactly when the start date is strictly before that year's trigger date
(February 28), and the following year otherwise — in particular a start date
falling exactly on the trigger date is sent to the following year. -/
theorem first_trigger_year_selection (start : Date) :
    (Date.lt start (triggerDate start.year) →
      startYearForFactorCheck start = start.year) ∧
    (¬ Date.lt start (triggerDate start.year) →
      startYearForFactorCheck start = start.year + 1) := by
  unfold startYearForFactorCheck triggerDate Date.lt
  by_cases h : start.month > 2 ∨ (start.month = 2 ∧ start.day ≥ 28) <;>
    [rw [if_pos h]; rw [if_neg h]] <;> dsimp only <;> constructor <;>
    intro h2 <;> omega

/-- Witness for C5's amended statement: 2024-02-27 is strictly before the
2024 trigger date, and the selected first trigger year is 2024. -/
theorem first_trigger_year_selection_witness :
    Date.lt (⟨2024, 2, 27⟩ : Date) (triggerDate 2024) ∧
      startYearForFactorCheck ⟨2024, 2, 27⟩ = 2024 :=
  ⟨by decide, (first_trigger_year_selection ⟨2024, 2, 27⟩).1 (by decide)⟩

/-- C6: for every valid (year, month), the period resolver yields the month
exactly two calendar months earlier, rolling the year over for January and
February; it is a total function. -/
theorem period_resolver_two_month_lag (y m : Int) (h1 : 1 ≤ m) (h2 : m ≤ 12) :
    get_cpi_month_for_effective_date y m =
      (if 3 ≤ m then y else y - 1, if 3 ≤ m then m - 2 else m + 10) := by
  unfold get_cpi_month_for_effective_date yearOf monthOf monthIdx
  by_cases h3 : 3 ≤ m <;>
    simp only [h3, ite_true, ite_false, Prod.mk.injEq] <;> constructor <;> omega

/-- Witness for C6: effective month January 2024 resolves to November 2023. -/
theorem period_resolver_two_month_lag_witness :
    (1 : Int) ≤ 1 ∧ (1 : Int) ≤ 12 ∧
      get_cpi_month_for_effective_date 2024 1 = (2023, 11) := by
  refine ⟨by norm_num, by norm_num, ?_⟩
  have h := period_resolver_two_month_lag 2024 1 (by norm_num) (by norm_num)
  simpa using h

/-! ### Structural lemmas about the timeline simulation -/

theorem simulateAux_length (cfg : IndexationConfig) (q : Int → Option ℚ)
    (fixedBase : ℚ) (hfb : fixedBase ≠ 0) :
    ∀ (fuel : Nat) (scan nextUpd : Int) (disp : ℚ),
      (simulateAux cfg q fixedBase fuel scan nextUpd disp).length = fuel := by
  intro fuel
  induction fuel with
  | zero => intro scan nextUpd disp; rfl
  | succ n ih =>
    intro scan nextUpd disp
    rw [simulateAux]
    by_cases hsn : scan = nextUpd
    · rw [if_pos hsn]
      cases hq : q (cpiLookupIdx scan) with
      | none => simp [ih]
      | some v =>
        dsimp only
        rw [calculate_some cfg.baseAmount fixedBase v (baseDateObj cfg)
          (billingDateFor cfg scan) hfb]
        simp [ih]
    · rw [if_neg hsn]
      simp [ih]

theorem simulateAux_effectiveDate (cfg : IndexationConfig) (q : Int → Option ℚ)
    (fixedBase : ℚ) :
    ∀ (fuel : Nat) (scan nextUpd : Int) (disp : ℚ) (i : ℕ),
      i < (simulateAux cfg q fixedBase fuel scan nextUpd disp).length →
      ((simulateAux cfg q fixedBase fuel scan nextUpd disp).getD i
        dummyEvent).effectiveDate = scan + i := by
  intro fuel
  induction fuel with
  | zero => intro scan nextUpd disp i hi; simp [simulateAux] at hi
  | succ n ih =>
    intro scan nextUpd disp i hi
    rw [simulateAux] at hi ⊢
    by_cases hsn : scan = nextUpd
    · rw [if_pos hsn] at hi ⊢
      cases hq : q (cpiLookupIdx scan) with
      | none =>
        rw [hq] at hi
        dsimp only at hi ⊢
        cases i with
        | zero => simp
        | succ j =>
          simp only [List.getD_cons_succ, List.length_cons] at hi ⊢
          rw [ih (scan + 1) (nextUpd + cfg.updateFrequencyMonths) disp j
            (by omega)]
          push_cast
          ring
      | some v =>
        rw [hq] at hi
        dsimp only at hi ⊢
        cases hc : calculate_indexed_amount_from_fixed_base cfg.baseAmount
            (some fixedBase) (some v) (baseDateObj cfg) (billingDateFor cfg scan) with
        | none => rw [hc] at hi; simp at hi
        | some p =>
          obtain ⟨amt, mult⟩ := p
          rw [hc] at hi
          dsimp only at hi ⊢
          cases i with
          | zero => simp
          | succ j =>
            simp only [List.getD_cons_succ, List.length_cons] at hi ⊢
            rw [ih (scan + 1) (nextUpd + cfg.updateFrequencyMonths) amt j
              (by omega)]
            push_cast
            ring
    · rw [if_neg hsn] at hi ⊢
      cases i with
      | zero => simp
      | succ j =>
        simp only [List.getD_cons_succ, List.length_cons] at hi ⊢
        rw [ih (scan + 1) nextUpd disp j (by omega)]
        push_cast
        ring

theorem simulateAux_carriesForward (cfg : IndexationConfig) (q : Int → Option ℚ)
    (fixedBase : ℚ) :
    ∀ (fuel : Nat) (scan nextUpd : Int) (disp : ℚ),
      carriesForwardFrom disp (simulateAux cfg q fixedBase fuel scan nextUpd disp) := by
  intro fuel
  induction fuel with
  | zero => intro scan nextUpd disp; trivial
  | succ n ih =>
    intro scan nextUpd disp
    rw [simulateAux]
    by_cases hsn : scan = nextUpd
    · rw [if_pos hsn]
      cases hq : q (cpiLookupIdx scan) with
      | none =>
        exact ⟨fun _ => rfl, ih (scan + 1) (nextUpd + cfg.updateFrequencyMonths) disp⟩
      | some v =>
        dsimp only
        cases hc : calculate_indexed_amount_from_fixed_base cfg.baseAmount
            (some fixedBase) (some v) (baseDateObj cfg) (billingDateFor cfg scan) with
        | none => trivial
        | some p =>
          obtain ⟨amt, mult⟩ := p
          refine ⟨?_, ih (scan + 1) (nextUpd + cfg.updateFrequencyMonths) amt⟩
          rintro (h | h) <;> simp at h
    · rw [if_neg hsn]
      exact ⟨fun _ => rfl, ih (scan + 1) nextUpd disp⟩

theorem carriesForwardFrom_getD (l : List UpdateEvent) :
    ∀ (prev : ℚ), carriesForwardFrom prev l →
      ∀ i : ℕ, i + 1 < l.length →
        ((l.getD (i + 1) dummyEvent).isOfficialUpdatePoint = false ∨
          (l.getD (i + 1) dummyEvent).quote = none) →
        (l.getD (i + 1) dummyEvent).resultingAmount =
          (l.getD i dummyEvent).resultingAmount := by
  induction l with
  | nil => intro prev _ i hi; simp at hi
  | cons e rest ih =>
    intro prev hc i hi hcond
    obtain ⟨he, hrest⟩ := hc
    cases i with
    | zero =>
      simp only [List.getD_cons_succ, List.getD_cons_zero] at hcond ⊢
      cases rest with
      | nil => simp at hi
      | cons e2 rest2 =>
        obtain ⟨he2, _⟩ := hrest
        simp only [List.getD_cons_zero] at hcond ⊢
        exact he2 hcond
    | succ j =>
      simp only [List.getD_cons_succ] at hcond ⊢
      exact ih e.resultingAmount hrest j (by simpa using hi) hcond

/-! ### Claim theorems: the timeline -/

/-- C7: with a nonzero fixed base index (guaranteed upstream, since `main`
only builds the table after the final indexation succeeded), the simulator
emits exactly one event per calendar month from the base effective month to
the scan end inclusive, in ascending order with no gaps. -/
theorem timeline_contiguous (cfg : IndexationConfig) (q : Int → Option ℚ)
    (fixedBase : ℚ) (scanEndIdx : Int) (hfb : fixedBase ≠ 0) :
    (simulate cfg q fixedBase scanEndIdx).length =
      (scanEndIdx - baseIdx cfg + 1).toNat ∧
    ∀ i : ℕ, i < (simulate cfg q fixedBase scanEndIdx).length →
      ((simulate cfg q fixedBase scanEndIdx).getD i dummyEvent).effectiveDate =
        baseIdx cfg + i :=
  ⟨simulateAux_length cfg q fixedBase hfb _ (baseIdx cfg) (baseIdx cfg)
      cfg.baseAmount,
    fun i hi => simulateAux_effectiveDate cfg q fixedBase _ (baseIdx cfg)
      (baseIdx cfg) cfg.baseAmount i hi⟩

/-- Witness for C7: on the example configuration (base May 2024) scanning
through November 2024, the timeline has exactly 7 events and the third event
is July 2024 (month index 24294). -/
theorem timeline_contiguous_witness :
    (100 : ℚ) ≠ 0 ∧ (simulate cfgEx qEx 100 24298).length = 7 ∧
      ((simulate cfgEx qEx 100 24298).getD 2 dummyEvent).effectiveDate = 24294 := by
  have h := timeline_contiguous cfgEx qEx 100 24298 (by norm_num)
  refine ⟨by norm_num, ?_, ?_⟩
  · rw [h.1]; rfl
  · rw [h.2 2 (by decide)]; decide

/-- C1: every event that is either not an official update point, or is an
official update point whose resolved quote is absent, carries the immediately
preceding event's resulting amount forward exactly. -/
theorem carry_forward (cfg : IndexationConfig) (q : Int → Option ℚ)
    (fixedBase : ℚ) (scanEndIdx : Int) (i : ℕ)
    (hi : i + 1 < (simulate cfg q fixedBase scanEndIdx).length)
    (hcond : ((simulate cfg q fixedBase scanEndIdx).getD (i + 1)
        dummyEvent).isOfficialUpdatePoint = false ∨
      ((simulate cfg q fixedBase scanEndIdx).getD (i + 1) dummyEvent).quote = none) :
    ((simulate cfg q fixedBase scanEndIdx).getD (i + 1) dummyEvent).resultingAmount =
      ((simulate cfg q fixedBase scanEndIdx).getD i dummyEvent).resultingAmount :=
  carriesForwardFrom_getD (simulate cfg q fixedBase scanEndIdx) cfg.baseAmount
    (simulateAux_carriesForward cfg q fixedBase _ (baseIdx cfg) (baseIdx cfg)
      cfg.baseAmount) i hi hcond

/-- Witness for C1: in the example timeline, June 2024 (index 1) is not an
official update point and shows the same amount as May 2024 (index 0). -/
theorem carry_forward_witness :
    0 + 1 < (simulate cfgEx qEx 100 24298).length ∧
      ((simulate cfgEx qEx 100 24298).getD 1
        dummyEvent).isOfficialUpdatePoint = false ∧
      ((simulate cfgEx qEx 100 24298).getD 1 dummyEvent).resultingAmount =
        ((simulate cfgEx qEx 100 24298).getD 0 dummyEvent).resultingAmount :=
  ⟨by decide, by decide,
    carry_forward cfgEx qEx 100 24298 0 (by decide) (Or.inl (by decide))⟩

theorem simulateAux_amount_of_no_quote (cfg : IndexationConfig)
    (q : Int → Option ℚ) (fixedBase : ℚ) :
    ∀ (fuel : Nat) (scan nextUpd : Int) (disp : ℚ) (i : ℕ),
      i < (simulateAux cfg q fixedBase fuel scan nextUpd disp).length →
      (∀ j : ℕ, j ≤ i →
        ((simulateAux cfg q fixedBase fuel scan nextUpd disp).getD j
          dummyEvent).quote = none) →
      ((simulateAux cfg q fixedBase fuel scan nextUpd disp).getD i
        dummyEvent).resultingAmount = disp := by
  intro fuel
  induction fuel with
  | zero => intro scan nextUpd disp i hi _; simp [simulateAux] at hi
  | succ n ih =>
    intro scan nextUpd disp i hi hq0
    rw [simulateAux] at hi hq0 ⊢
    by_cases hsn : scan = nextUpd
    · rw [if_pos hsn] at hi hq0 ⊢
      cases hq : q (cpiLookupIdx scan) with
      | none =>
        rw [hq] at hi hq0
        dsimp only at hi hq0 ⊢
        cases i with
        | zero => simp
        | succ j =>
          simp only [List.getD_cons_succ, List.length_cons] at hi ⊢
          refine ih (scan + 1) (nextUpd + cfg.updateFrequencyMonths) disp j
            (by omega) ?_
          intro j2 hj2
          have h2 := hq0 (j2 + 1) (by omega)
          simpa using h2
      | some v =>
        rw [hq] at hi hq0
        dsimp only at hi hq0 ⊢
        cases hc : calculate_indexed_amount_from_fixed_base cfg.baseAmount
            (some fixedBase) (some v) (baseDateObj cfg) (billingDateFor cfg scan) with
        | none => rw [hc] at hi; simp at hi
        | some p =>
          obtain ⟨amt, mult⟩ := p
          rw [hc] at hq0
          dsimp only at hq0
          have h0 := hq0 0 (Nat.zero_le i)
          simp at h0
    · rw [if_neg hsn] at hi hq0 ⊢
      cases i with
      | zero => simp
      | succ j =>
        simp only [List.getD_cons_succ, List.length_cons] at hi ⊢
        refine ih (scan + 1) nextUpd disp j (by omega) ?_
        intro j2 hj2
        have h2 := hq0 (j2 + 1) (by omega)
        simpa using h2

theorem simulateAux_head_official (cfg : IndexationConfig) (q : Int → Option ℚ)
    (fixedBase : ℚ) (fuel : Nat) (scan : Int) (disp : ℚ)
    (h : 0 < (simulateAux cfg q fixedBase fuel scan scan disp).length) :
    ((simulateAux cfg q fixedBase fuel scan scan disp).getD 0
        dummyEvent).isOfficialUpdatePoint = true ∧
      ((simulateAux cfg q fixedBase fuel scan scan disp).getD 0
        dummyEvent).effectiveDate = scan := by
  cases fuel with
  | zero => simp [simulateAux] at h
  | succ n =>
    rw [simulateAux] at h ⊢
    rw [if_pos rfl] at h ⊢
    cases hq : q (cpiLookupIdx scan) with
    | none => exact ⟨rfl, rfl⟩
    | some v =>
      rw [hq] at h
      dsimp only at h ⊢
      cases hc : calculate_indexed_amount_from_fixed_base cfg.baseAmount
          (some fixedBase) (some v) (baseDateObj cfg) (billingDateFor cfg scan) with
      | none => rw [hc] at h; simp at h
      | some p =>
        obtain ⟨amt, mult⟩ := p
        exact ⟨rfl, rfl⟩

theorem simulateAux_official_amount (cfg : IndexationConfig)
    (q : Int → Option ℚ) (fixedBase : ℚ) :
    ∀ (fuel : Nat) (scan nextUpd : Int) (disp : ℚ) (i : ℕ) (v : ℚ),
      i < (simulateAux cfg q fixedBase fuel scan nextUpd disp).length →
      ((simulateAux cfg q fixedBase fuel scan nextUpd disp).getD i
        dummyEvent).quote = some v →
      ∃ m : ℚ,
        ((simulateAux cfg q fixedBase fuel scan nextUpd disp).getD i
          dummyEvent).annualMultiplier = some m ∧
        m = annualLinkageMultiplier ANNUAL_LINKAGE_FACTOR (baseDateObj cfg)
          (billingDateFor cfg
            (((simulateAux cfg q fixedBase fuel scan nextUpd disp).getD i
              dummyEvent).effectiveDate)) ∧
        ((simulateAux cfg q fixedBase fuel scan nextUpd disp).getD i
          dummyEvent).resultingAmount = cfg.baseAmount * (v / fixedBase) * m := by
  intro fuel
  induction fuel with
  | zero => intro scan nextUpd disp i v hi _; simp [simulateAux] at hi
  | succ n ih =>
    intro scan nextUpd disp i v hi hqv
    rw [simulateAux] at hi hqv ⊢
    by_cases hsn : scan = nextUpd
    · rw [if_pos hsn] at hi hqv ⊢
      cases hq : q (cpiLookupIdx scan) with
      | none =>
        rw [hq] at hi hqv
        dsimp only at hi hqv ⊢
        cases i with
        | zero => simp at hqv
        | succ j =>
          simp only [List.getD_cons_succ, List.length_cons] at hi hqv ⊢
          exact ih (scan + 1) (nextUpd + cfg.updateFrequencyMonths) disp j v
            (by omega) hqv
      | some v0 =>
        rw [hq] at hi hqv
        dsimp only at hi hqv ⊢
        by_cases hfb0 : fixedBase = 0
        · rw [hfb0] at hi
          simp [calculate_indexed_amount_from_fixed_base] at hi
        · rw [calculate_some cfg.baseAmount fixedBase v0 (baseDateObj cfg)
            (billingDateFor cfg scan) hfb0] at hi hqv ⊢
          dsimp only at hi hqv ⊢
          cases i with
          | zero =>
            simp only [List.getD_cons_zero] at hqv ⊢
            have hv : v0 = v := by simpa using hqv
            subst hv
            exact ⟨annualLinkageMultiplier ANNUAL_LINKAGE_FACTOR (baseDateObj cfg)
              (billingDateFor cfg scan), rfl, rfl, rfl⟩
          | succ j =>
            simp only [List.getD_cons_succ, List.length_cons] at hi hqv ⊢
            exact ih (scan + 1) (nextUpd + cfg.updateFrequencyMonths) _ j v
              (by omega) hqv
    · rw [if_neg hsn] at hi hqv ⊢
      cases i with
      | zero => simp at hqv
      | succ j =>
        simp only [List.getD_cons_succ, List.length_cons] at hi hqv ⊢
        exact ih (scan + 1) nextUpd disp j v (by omega) hqv

/-! ### Arithmetic bridges for the official-update-point pattern -/

theorem officialIndexShift (freq : Int) (hfreq : 1 ≤ freq) (j : ℕ) (scan : Int) :
    (∃ k : ℕ, (j : Int) = scan + freq - (scan + 1) + freq * k) ↔
      ∃ k : ℕ, (((j + 1 : ℕ)) : Int) = scan - scan + freq * k := by
  constructor
  · rintro ⟨k, hk⟩
    refine ⟨k + 1, ?_⟩
    have hx : freq * ((k : Int) + 1) = freq * (k : Int) + freq := by ring
    push_cast
    linarith
  · rintro ⟨k, hk⟩
    have hkpos : k ≠ 0 := by
      rintro rfl
      simp at hk
      omega
    obtain ⟨k2, rfl⟩ := Nat.exists_eq_succ_of_ne_zero hkpos
    refine ⟨k2, ?_⟩
    have hx : freq * ((k2 : Int) + 1) = freq * (k2 : Int) + freq := by ring
    push_cast at hk
    linarith

theorem nonOfficialIndexShift (freq : Int) (j : ℕ) (scan nextUpd : Int) :
    (∃ k : ℕ, (j : Int) = nextUpd - (scan + 1) + freq * k) ↔
      ∃ k : ℕ, (((j + 1 : ℕ)) : Int) = nextUpd - scan + freq * k := by
  constructor <;> rintro ⟨k, hk⟩ <;> refine ⟨k, ?_⟩ <;> push_cast at hk ⊢ <;>
    linarith

theorem simulateAux_official_iff (cfg : IndexationConfig) (q : Int → Option ℚ)
    (fixedBase : ℚ) (hfreq : 1 ≤ cfg.updateFrequencyMonths) :
    ∀ (fuel : Nat) (scan nextUpd : Int) (disp : ℚ), scan ≤ nextUpd →
      ∀ i : ℕ, i < (simulateAux cfg q fixedBase fuel scan nextUpd disp).length →
        (((simulateAux cfg q fixedBase fuel scan nextUpd disp).getD i
            dummyEvent).isOfficialUpdatePoint = true ↔
          ∃ k : ℕ, (i : Int) = (nextUpd - scan) + cfg.updateFrequencyMonths * k) := by
  intro fuel
  induction fuel with
  | zero => intro scan nextUpd disp _ i hi; simp [simulateAux] at hi
  | succ n ih =>
    intro scan nextUpd disp hle i hi
    rw [simulateAux] at hi ⊢
    by_cases hsn : scan = nextUpd
    · rw [if_pos hsn] at hi ⊢
      subst hsn
      cases hq : q (cpiLookupIdx scan) with
      | none =>
        rw [hq] at hi
        dsimp only at hi ⊢
        cases i with
        | zero =>
          simp only [List.getD_cons_zero]
          constructor
          · intro _
            exact ⟨0, by push_cast; ring⟩
          · intro _
            trivial
        | succ j =>
          simp only [List.getD_cons_succ, List.length_cons] at hi ⊢
          rw [ih (scan + 1) (scan + cfg.updateFrequencyMonths) disp (by omega) j
            (by omega)]
          exact officialIndexShift cfg.updateFrequencyMonths hfreq j scan
      | some v =>
        rw [hq] at hi
        dsimp only at hi ⊢
        cases hc : calculate_indexed_amount_from_fixed_base cfg.baseAmount
            (some fixedBase) (some v) (baseDateObj cfg) (billingDateFor cfg scan) with
        | none => rw [hc] at hi; simp at hi
        | some p =>
          obtain ⟨amt, mult⟩ := p
          rw [hc] at hi
          dsimp only at hi ⊢
          cases i with
          | zero =>
            simp only [List.getD_cons_zero]
            constructor
            · intro _
              exact ⟨0, by push_cast; ring⟩
            · intro _
              trivial
          | succ j =>
            simp only [List.getD_cons_succ, List.length_cons] at hi ⊢
            rw [ih (scan + 1) (scan + cfg.updateFrequencyMonths) amt (by omega) j
              (by omega)]
            exact officialIndexShift cfg.updateFrequencyMonths hfreq j scan
    · rw [if_neg hsn] at hi ⊢
      have hlt : scan < nextUpd := lt_of_le_of_ne hle hsn
      cases i with
      | zero =>
        simp only [List.getD_cons_zero]
        constructor
        · intro h
          simp at h
        · rintro ⟨k, hk⟩
          exfalso
          have hk0 : (0 : Int) ≤ cfg.updateFrequencyMonths * (k : Int) :=
            mul_nonneg (by omega) (Int.natCast_nonneg k)
          push_cast at hk
          linarith
      | succ j =>
        simp only [List.getD_cons_succ, List.length_cons] at hi ⊢
        rw [ih (scan + 1) nextUpd disp (by omega) j (by omega)]
        exact nonOfficialIndexShift cfg.updateFrequencyMonths j scan nextUpd

/-! ### Remaining claim theorems about the timeline -/

/-- C10: the carry-forward chain is seeded with the configured base amount:
the first event is the base effective month and an official update point, and
as long as no event of an initial prefix has a present quote every event of
that prefix shows exactly the base amount. -/
theorem timeline_seeded_with_base (cfg : IndexationConfig) (q : Int → Option ℚ)
    (fixedBase : ℚ) (scanEndIdx : Int) :
    (0 < (simulate cfg q fixedBase scanEndIdx).length →
      ((simulate cfg q fixedBase scanEndIdx).getD 0
          dummyEvent).isOfficialUpdatePoint = true ∧
        ((simulate cfg q fixedBase scanEndIdx).getD 0 dummyEvent).effectiveDate =
          baseIdx cfg) ∧
    ∀ i : ℕ, i < (simulate cfg q fixedBase scanEndIdx).length →
      (∀ j : ℕ, j ≤ i →
        ((simulate cfg q fixedBase scanEndIdx).getD j dummyEvent).quote = none) →
      ((simulate cfg q fixedBase scanEndIdx).getD i dummyEvent).resultingAmount =
        cfg.baseAmount :=
  ⟨fun h => simulateAux_head_official cfg q fixedBase _ (baseIdx cfg)
      cfg.baseAmount h,
    fun i hi hq0 => simulateAux_amount_of_no_quote cfg q fixedBase _ (baseIdx cfg)
      (baseIdx cfg) cfg.baseAmount i hi hq0⟩

/-- Witness for C10: with a provider that never publishes, the timeline's
first event is the official base month and the amount three months in is
still exactly 4000. -/
theorem timeline_seeded_with_base_witness :
    0 < (simulate cfgEx (fun _ => none) 100 24298).length ∧
      ((simulate cfgEx (fun _ => none) 100 24298).getD 0
          dummyEvent).isOfficialUpdatePoint = true ∧
      ((simulate cfgEx (fun _ => none) 100 24298).getD 2
          dummyEvent).resultingAmount = 4000 := by
  refine ⟨by decide, ?_, ?_⟩
  · exact ((timeline_seeded_with_base cfgEx (fun _ => none) 100 24298).1
      (by decide)).1
  · exact (timeline_seeded_with_base cfgEx (fun _ => none) 100 24298).2 2
      (by decide) (by decide)

/-- C3: every official update point with a present quote reports the amount
`baseAmount * (currentValue / fixedBaseValue)` multiplied by the annual
linkage multiplier for that month's billing date. -/
theorem official_amount_formula (cfg : IndexationConfig) (q : Int → Option ℚ)
    (fixedBase : ℚ) (scanEndIdx : Int) (i : ℕ) (v : ℚ)
    (hi : i < (simulate cfg q fixedBase scanEndIdx).length)
    (hoff : ((simulate cfg q fixedBase scanEndIdx).getD i
        dummyEvent).isOfficialUpdatePoint = true)
    (hq : ((simulate cfg q fixedBase scanEndIdx).getD i dummyEvent).quote = some v) :
    ∃ m : ℚ,
      ((simulate cfg q fixedBase scanEndIdx).getD i
        dummyEvent).annualMultiplier = some m ∧
      m = annualLinkageMultiplier ANNUAL_LINKAGE_FACTOR (baseDateObj cfg)
        (billingDateFor cfg
          (((simulate cfg q fixedBase scanEndIdx).getD i
            dummyEvent).effectiveDate)) ∧
      ((simulate cfg q fixedBase scanEndIdx).getD i dummyEvent).resultingAmount =
        cfg.baseAmount * (v / fixedBase) * m :=
  simulateAux_official_amount cfg q fixedBase _ (baseIdx cfg) (baseIdx cfg)
    cfg.baseAmount i v hi hq

/-- Witness for C3, matching the specification's end-to-end example: the
November 2024 event (index 6) is official with quote 103, base amount 4000
and fixed base 100, and its resulting amount is exactly 4120 (the annual
multiplier is 1 there). -/
theorem official_amount_formula_witness :
    (∃ m : ℚ,
      ((simulate cfgEx qEx 100 24298).getD 6 dummyEvent).annualMultiplier = some m ∧
      m = annualLinkageMultiplier ANNUAL_LINKAGE_FACTOR (baseDateObj cfgEx)
        (billingDateFor cfgEx
          (((simulate cfgEx qEx 100 24298).getD 6 dummyEvent).effectiveDate)) ∧
      ((simulate cfgEx qEx 100 24298).getD 6 dummyEvent).resultingAmount =
        cfgEx.baseAmount * (103 / 100) * m) ∧
    ((simulate cfgEx qEx 100 24298).getD 6 dummyEvent).resultingAmount = 4120 := by
  obtain ⟨m, hm1, hm2, hm3⟩ := official_amount_formula cfgEx qEx 100 24298 6 103
    (by decide) (by decide) (by decide)
  refine ⟨⟨m, hm1, hm2, hm3⟩, ?_⟩
  rw [hm3, hm2]
  have heff : ((simulate cfgEx qEx 100 24298).getD 6 dummyEvent).effectiveDate =
      24298 := by decide
  rw [heff]
  have hz : numYearsForFactor (baseDateObj cfgEx) (billingDateFor cfgEx 24298) = 0 := by
    decide
  unfold annualLinkageMultiplier
  rw [hz]
  norm_num [cfgEx]

/-- C2: official update points are exactly the months whose offset from the
base effective month is a multiple of the update frequency (offset 0, the
base month itself, included) — independently of quote availability, because
the cursor advances at every official point. -/
theorem official_update_points (cfg : IndexationConfig) (q : Int → Option ℚ)
    (fixedBase : ℚ) (scanEndIdx : Int) (hfreq : 1 ≤ cfg.updateFrequencyMonths)
    (i : ℕ) (hi : i < (simulate cfg q fixedBase scanEndIdx).length) :
    ((simulate cfg q fixedBase scanEndIdx).getD i
        dummyEvent).isOfficialUpdatePoint = true ↔
      cfg.updateFrequencyMonths ∣ (i : Int) := by
  unfold simulate at hi ⊢
  rw [simulateAux_official_iff cfg q fixedBase hfreq _ (baseIdx cfg) (baseIdx cfg)
    cfg.baseAmount le_rfl i hi]
  constructor
  · rintro ⟨k, hk⟩
    exact ⟨(k : Int), by linarith⟩
  · rintro ⟨t, ht⟩
    have ht0 : 0 ≤ t := by
      rcases le_or_lt 0 t with h | h
      · exact h
      · exfalso
        have h1 : (0 : Int) < cfg.updateFrequencyMonths * (-t) :=
          mul_pos (by omega) (by omega)
        have h2 : cfg.updateFrequencyMonths * (-t) =
            -(cfg.updateFrequencyMonths * t) := by ring
        have h3 : (0 : Int) ≤ (i : Int) := Int.natCast_nonneg i
        linarith
    refine ⟨t.toNat, ?_⟩
    rw [Int.toNat_of_nonneg ht0]
    linarith

/-- Witness for C2: in the example timeline, the event at offset 3 (August
2024) is official, and indeed 3 divides 3. -/
theorem official_update_points_witness :
    (1 : Int) ≤ cfgEx.updateFrequencyMonths ∧
      3 < (simulate cfgEx qEx 100 24298).length ∧
      (((simulate cfgEx qEx 100 24298).getD 3
          dummyEvent).isOfficialUpdatePoint = true ↔
        cfgEx.updateFrequencyMonths ∣ ((3 : ℕ) : Int)) :=
  ⟨by decide, by decide,
    official_update_points cfgEx qEx 100 24298 (by decide) 3 (by decide)⟩

/-! ### The full pipeline and its failure policy -/

theorem fallbackScan_finds (q : Int → Option ℚ) :
    ∀ (fuel : Nat) (i : Int), (∃ k : ℕ, k < fuel ∧ q (i - k) ≠ none) →
      fallbackScan q fuel i ≠ none := by
  intro fuel
  induction fuel with
  | zero => rintro i ⟨k, hk, _⟩; omega
  | succ n ih =>
    rintro i ⟨k, hk, hq⟩
    rw [fallbackScan]
    cases hqi : q i with
    | some v => simp
    | none =>
      dsimp only
      cases k with
      | zero =>
        exfalso
        apply hq
        simpa using hqi
      | succ k2 =>
        apply ih
        refine ⟨k2, by omega, ?_⟩
        have hcast : i - 1 - (k2 : Int) = i - ((k2 + 1 : ℕ) : Int) := by
          push_cast
          ring
        rw [hcast]
        exact hq

theorem resolveCurrentForFinal_ne_none (q : Int → Option ℚ) (fbIdx curIdx : Int)
    (hfb : q fbIdx ≠ none) (hle : fbIdx ≤ curIdx) :
    resolveCurrentForFinal q fbIdx curIdx ≠ none := by
  rw [resolveCurrentForFinal]
  cases hc : q curIdx with
  | some v => simp
  | none =>
    dsimp only
    apply fallbackScan_finds
    have hne : fbIdx ≠ curIdx := by
      rintro rfl
      exact hfb hc
    refine ⟨(curIdx - 1 - fbIdx).toNat, by omega, ?_⟩
    have hcast : curIdx - 1 - ((curIdx - 1 - fbIdx).toNat : Int) = fbIdx := by
      omega
    rw [hcast]
    exact hfb

/-- C9: a missing quote for a single month never aborts the rest of the
timeline — any timeline `main` produces covers the whole scan range, one
event per month, for every quote provider — while the calculation as a whole
fails (producing no timeline at all) exactly when the fixed base quote is
unavailable.  Hypotheses: a billing day valid for the base month (otherwise
`main` rejects the configuration upfront), a base effective month not after
today, and a fixed-base quote that is not the degenerate value 0. -/
theorem missing_data_policy (cfg : IndexationConfig) (q : Int → Option ℚ)
    (todayIdx : Int) (hday1 : 1 ≤ cfg.billingDay)
    (hday2 : cfg.billingDay ≤ daysInMonth cfg.baseYear cfg.baseMonth)
    (hq0 : q (fixedBaseCpiIdx cfg) ≠ some 0)
    (hord : baseIdx cfg ≤ todayIdx) :
    (main_run cfg q todayIdx = none ↔ q (fixedBaseCpiIdx cfg) = none) ∧
    ∀ evs : List UpdateEvent, main_run cfg q todayIdx = some evs →
      evs.length = (todayIdx + 2 - baseIdx cfg + 1).toNat := by
  have hcond : 1 ≤ cfg.billingDay ∧
      cfg.billingDay ≤ daysInMonth cfg.baseYear cfg.baseMonth := ⟨hday1, hday2⟩
  have hfble : fixedBaseCpiIdx cfg ≤ todayIdx - 2 := by
    unfold fixedBaseCpiIdx
    rw [cpiLookupIdx_eq]
    omega
  have hmain : ∀ fb : ℚ, q (fixedBaseCpiIdx cfg) = some fb →
      main_run cfg q todayIdx = some (simulate cfg q fb (todayIdx + 2)) := by
    intro fb hfb
    have hfbne : fb ≠ 0 := by
      rintro rfl
      exact hq0 hfb
    have hres := resolveCurrentForFinal_ne_none q (fixedBaseCpiIdx cfg)
      (todayIdx - 2) (by rw [hfb]; simp) hfble
    obtain ⟨cur, hcur⟩ := Option.ne_none_iff_exists.mp hres
    unfold main_run
    rw [if_pos hcond, hfb]
    dsimp only
    rw [← hcur]
    dsimp only
    rw [calculate_some cfg.baseAmount fb cur (baseDateObj cfg)
      (billingDateFor cfg todayIdx) hfbne]
  refine ⟨⟨?_, ?_⟩, ?_⟩
  · intro hnone
    by_contra hq
    obtain ⟨fb, hfb⟩ := Option.ne_none_iff_exists.mp hq
    rw [hmain fb hfb.symm] at hnone
    exact Option.noConfusion hnone
  · intro hq
    unfold main_run
    rw [if_pos hcond, hq]
  · intro evs hsome
    cases hqf : q (fixedBaseCpiIdx cfg) with
    | none =>
      unfold main_run at hsome
      rw [if_pos hcond, hqf] at hsome
      exact Option.noConfusion hsome
    | some fb =>
      rw [hmain fb hqf] at hsome
      have hfbne : fb ≠ 0 := by
        rintro rfl
        exact hq0 hqf
      have hev : simulate cfg q fb (todayIdx + 2) = evs := Option.some_inj.mp hsome
      rw [← hev]
      unfold simulate
      exact simulateAux_length cfg q fb hfbne _ (baseIdx cfg) (baseIdx cfg)
        cfg.baseAmount

/-- Witness for C9: on the example configuration (with its fixed base quote
present), the pipeline fails for neither side of the equivalence. -/
theorem missing_data_policy_witness :
    (1 : Int) ≤ cfgEx.billingDay ∧
      cfgEx.billingDay ≤ daysInMonth cfgEx.baseYear cfgEx.baseMonth ∧
      qEx (fixedBaseCpiIdx cfgEx) ≠ some 0 ∧
      baseIdx cfgEx ≤ 24298 ∧
      (main_run cfgEx qEx 24298 = none ↔ qEx (fixedBaseCpiIdx cfgEx) = none) :=
  ⟨by decide, by decide, by decide, by decide,
    (missing_data_policy cfgEx qEx 24298 (by decide) (by decide) (by decide)
      (by decide)).1⟩

end MezonotMadad
